import Mathlib

/-!
Verification of the CloudStorage backend core against its specification.

Each namespace embeds one subsystem of the JavaScript source as executable
Lean definitions (shallow embedding): pure functions become Lean functions,
stateful service methods become explicit state passing, thrown typed errors
become `Except` results.  The theorems at the end of the file settle the
spec claims against these embeddings.
-/

set_option maxRecDepth 4000

namespace JsModel

/-- The JavaScript whitespace class used by String.prototype.trim and by
parseInt when skipping leading whitespace. -/
def isJsSpace (c : Char) : Bool :=
  c = ' ' || c = '\t' || c = '\n' || c = '\r' ||
  c.toNat = 0xb || c.toNat = 0xc || c.toNat = 0xa0 || c.toNat = 0xfeff ||
  c.toNat = 0x1680 || (0x2000 ≤ c.toNat && c.toNat ≤ 0x200a) ||
  c.toNat = 0x2028 || c.toNat = 0x2029 || c.toNat = 0x202f ||
  c.toNat = 0x205f || c.toNat = 0x3000

/-- String.prototype.trim: drop JS whitespace from both ends. -/
def trimList (s : List Char) : List Char :=
  ((s.dropWhile isJsSpace).reverse.dropWhile isJsSpace).reverse

/-- String.prototype.split with a one-character separator. -/
def splitOnChar (sep : Char) : List Char → List (List Char)
  | [] => [[]]
  | c :: rest =>
    let ps := splitOnChar sep rest
    if c = sep then [] :: ps
    else
      match ps with
      | [] => [[c]]
      | p :: tail => (c :: p) :: tail

/-- String.prototype.replace with a plain-string pattern: replace the first
occurrence of pat (an empty pattern inserts rep at the front, as in JS). -/
def replaceFirst (pat rep : List Char) : List Char → List Char
  | [] => if pat = [] then rep else []
  | c :: rest =>
    if pat = [] then rep ++ c :: rest
    else if pat.isPrefixOf (c :: rest) then rep ++ (c :: rest).drop pat.length
    else c :: replaceFirst pat rep rest

def isDigit10 (c : Char) : Bool := '0' ≤ c && c ≤ '9'

def digitsVal (s : List Char) : Nat :=
  s.foldl (fun acc c => acc * 10 + (c.toNat - 48)) 0

/-- Number.parseInt(s, 10): skip leading whitespace, optional sign, then the
longest digit run; NaN (None) when no digit follows. -/
def jsParseInt10 (s : List Char) : Option Int :=
  let t := s.dropWhile isJsSpace
  match t with
  | '-' :: rest =>
    let ds := rest.takeWhile isDigit10
    if ds = [] then none else some (-(digitsVal ds : Int))
  | '+' :: rest =>
    let ds := rest.takeWhile isDigit10
    if ds = [] then none else some (digitsVal ds : Int)
  | _ =>
    let ds := t.takeWhile isDigit10
    if ds = [] then none else some (digitsVal ds : Int)

def isHexDigit (c : Char) : Bool :=
  isDigit10 c || ('a' ≤ c && c ≤ 'f') || ('A' ≤ c && c ≤ 'F')

def hexVal (c : Char) : Nat :=
  if isDigit10 c then c.toNat - 48
  else if 'a' ≤ c && c ≤ 'f' then c.toNat - 87
  else c.toNat - 55

/-- Buffer.from(s, hex): decode pairs of hex digits, truncating at the first
invalid pair or odd trailing digit. -/
def hexDecode : List Char → List Nat
  | a :: b :: rest =>
    if isHexDigit a && isHexDigit b then (hexVal a * 16 + hexVal b) :: hexDecode rest
    else []
  | _ => []

/-- Embeds verifyHash (src/src/utils/hash.js lines 74-85): false on a missing
argument, otherwise timingSafeEqual over the lowercased hex decodings, where a
length mismatch throws and is caught as false. -/
def jsVerifyHash (actual expected : String) : Bool :=
  if actual = "" || expected = "" then false
  else
    let da := hexDecode (actual.toList.map Char.toLower)
    let db := hexDecode (expected.toList.map Char.toLower)
    decide (da = db)

/-- Math.ceil(a / b) on integers with b positive. -/
def jsMathCeilDiv (a b : Int) : Int := -((-a).fdiv b)

/-- String.prototype.includes on character lists: pat occurs contiguously. -/
def containsSeq (pat : List Char) : List Char → Bool
  | [] => pat = []
  | c :: rest => pat.isPrefixOf (c :: rest) || containsSeq pat rest

/-- Insert into a list sorted by le. -/
def insertSorted (le : α → α → Bool) (x : α) : List α → List α
  | [] => [x]
  | y :: rest => if le x y then x :: y :: rest else y :: insertSorted le x rest

/-- Sort ascending by le (insertion sort, used to model the sorts the source
applies to query results and set members). -/
def sortBy (le : α → α → Bool) : List α → List α
  | [] => []
  | x :: rest => insertSorted le x (sortBy le rest)

end JsModel

namespace QuotaM

/-- A calendar date as observed through the JS Date accessors used by the
source: getFullYear, getMonth (0-11) and getDate (day of month, 1-31). -/
structure JSDate where
  year : Nat
  month : Nat
  day : Nat
deriving DecidableEq, Repr

structure Bandwidth where
  daily : Nat
  monthly : Nat
  lastReset : Option JSDate
deriving DecidableEq, Repr

/-- Embeds Quota.addBandwidth (src/src/models/Quota.js lines 194-214): the
daily counter is cleared when now.getDate() differs from lastReset.getDate();
only inside that branch, the monthly counter is cleared when now.getMonth()
differs from lastReset.getMonth(); then the bytes are added to both. -/
def addBandwidth (now : JSDate) (bw : Bandwidth) (bytes : Nat) : Bandwidth :=
  let bw1 : Bandwidth :=
    match bw.lastReset with
    | none =>
      { daily := 0, monthly := 0, lastReset := some now }
    | some last =>
      if now.day ≠ last.day then
        { daily := 0
          monthly := if now.month ≠ last.month then 0 else bw.monthly
          lastReset := some now }
      else bw
  { bw1 with daily := bw1.daily + bytes, monthly := bw1.monthly + bytes }

/-- Two dates fall on the same wall-clock day. -/
def sameCalendarDay (a b : JSDate) : Bool :=
  a.year = b.year && a.month = b.month && a.day = b.day

/-- Two dates fall in the same wall-clock month. -/
def sameMonth (a b : JSDate) : Bool :=
  a.year = b.year && a.month = b.month

end QuotaM

namespace RateM

/-- One member of the Redis sorted set backing a sliding window: the score is
the insertion time in milliseconds, the member the string now:random. -/
structure Entry where
  score : Int
  member : String
deriving DecidableEq, Repr

structure RLResult where
  allowed : Bool
  remaining : Int
  retryAfter : Int
  limit : Int
deriving DecidableEq, Repr

/-- The pipeline's zremrangebyscore(key, 0, windowStart): drop every entry
whose score lies in the inclusive interval [0, windowStart]. -/
def pruneWindow (windowStart : Int) (entries : List Entry) : List Entry :=
  entries.filter (fun e => !(decide (0 ≤ e.score) && decide (e.score ≤ windowStart)))

/-- The oldest (lowest) score in the sorted set, as zrange key 0 0 WITHSCORES
reports it. -/
def oldestScore : List Entry → Option Int
  | [] => none
  | e :: rest =>
    match oldestScore rest with
    | none => some e.score
    | some m => some (min e.score m)

/-- Embeds checkRateLimit (src/src/middleware/rateLimiter.js lines 40-90).
The single Redis pipeline prunes, reads the cardinality, and adds the new
entry; only afterwards is the pruned cardinality compared against the limit,
so the new entry is in the set on both the allowed and the denied path. -/
def checkRateLimit (now limit windowSeconds : Int) (member : String)
    (entries : List Entry) : RLResult × List Entry :=
  let windowStart := now - windowSeconds * 1000
  let pruned := pruneWindow windowStart entries
  let count : Int := pruned.length
  let after := pruned ++ [⟨now, member⟩]
  if count ≥ limit then
    let retryAfter :=
      match oldestScore after with
      | some oldest => JsModel.jsMathCeilDiv (oldest + windowSeconds * 1000 - now) 1000
      | none => windowSeconds
    ({ allowed := false, remaining := 0, retryAfter := max 1 retryAfter, limit := limit }, after)
  else
    ({ allowed := true, remaining := limit - count - 1, retryAfter := 0, limit := limit }, after)

end RateM

namespace FolderM

/-- Number of slash characters in a path. -/
def slashCount (s : List Char) : Nat := s.countP (fun c => c = '/')

/-- Embeds the folderSchema pre-save hook (Folder model, cascading source
file lines 172-186) for a folder with a parent: the path is the parent's
path, a slash, and the name; the depth is the parent's depth plus one. -/
def preSaveChild (parentPath : List Char) (parentDepth : Nat) (name : List Char) :
    List Char × Nat :=
  (parentPath ++ '/' :: name, parentDepth + 1)

/-- Embeds the pre-save hook for a folder without a parent: path /name and
depth 0. -/
def preSaveRoot (name : List Char) : List Char × Nat :=
  ('/' :: name, 0)

/-- The invariant claimed for non-root folders: depth is the number of slash
characters in the path, minus one. -/
def depthInvariant (path : List Char) (depth : Nat) : Prop :=
  depth = slashCount path - 1

instance (path : List Char) (depth : Nat) : Decidable (depthInvariant path depth) := by
  unfold depthInvariant; infer_instance

/-- Embeds one iteration of updateDescendantPaths (Folder model, lines
226-237) on a single descendant: the descendant's path has its first
occurrence of oldPath replaced by newPath, and its depth is recomputed as
path.split('/').length - 1. -/
def cascadeDescendant (oldPath newPath descPath : List Char) : List Char × Nat :=
  let p := JsModel.replaceFirst oldPath newPath descPath
  (p, (JsModel.splitOnChar '/' p).length - 1)

end FolderM

namespace MigrationM

inductive Role
  | free
  | premium
  | admin
deriving DecidableEq, Repr

inductive Tier
  | hot
  | cold
deriving DecidableEq, Repr

inductive MigStatus
  | normal
  | pending
  | inProgress
  | completed
  | failed
deriving DecidableEq, Repr

/-- The File fields consulted by the tier-migration worker. -/
structure FileRec where
  id : Nat
  userId : Nat
  storageTier : Tier
  lastAccessAt : Int
  lastDownloadAt : Option Int
  downloads : Nat
  isDeleted : Bool
  migrationStatus : MigStatus
deriving DecidableEq, Repr

def msPerDay : Int := 24 * 60 * 60 * 1000

/-- Embeds the query filter of File.findColdMigrationCandidates
(src/src/models/File.js lines 253-264): hot tier, last access at or before
the cutoff, not deleted, migration status neither pending nor in_progress.
The owner's role is not part of the query. -/
def isColdCandidate (now daysInactive : Int) (f : FileRec) : Bool :=
  let cutoff := now - daysInactive * msPerDay
  decide (f.storageTier = Tier.hot) && decide (f.lastAccessAt ≤ cutoff) &&
  !f.isDeleted &&
  !(decide (f.migrationStatus = MigStatus.pending) ||
    decide (f.migrationStatus = MigStatus.inProgress))

/-- Embeds File.findColdMigrationCandidates: filter, sort ascending by
lastAccessAt, take the batch limit. -/
def findColdMigrationCandidates (now daysInactive : Int) (limit : Nat)
    (files : List FileRec) : List FileRec :=
  ((JsModel.sortBy (fun a b => decide (a.lastAccessAt ≤ b.lastAccessAt))
      (files.filter (isColdCandidate now daysInactive))).take limit)

/-- Embeds StorageTierService.shouldMigrateToCold
(src/src/services/StorageTierService.js lines 27-46): premium or admin
owners are excluded, cold files are excluded, otherwise the last access
must be strictly before the cutoff.  The migration worker never calls this
method. -/
def shouldMigrateToCold (now daysInactive : Int) (ownerRole : Option Role)
    (f : FileRec) : Bool :=
  match ownerRole with
  | some Role.premium => false
  | some Role.admin => false
  | _ =>
    if f.storageTier = Tier.cold then false
    else decide (f.lastAccessAt < now - daysInactive * msPerDay)

/-- Embeds the success path of StorageTierService.migrateFile for a file not
already on the target tier: the blob is moved and the record gets the new
tier with migrationStatus completed. -/
def migrateFileSuccess (targetTier : Tier) (f : FileRec) : FileRec :=
  if f.storageTier = targetTier then f
  else { f with storageTier := targetTier, migrationStatus := MigStatus.completed }

/-- Embeds MigrationWorker.processColdMigrations (migration worker source
lines 56-80): every candidate returned by the query is migrated to cold;
no per-file role check happens on this path. -/
def processColdMigrations (now daysInactive : Int) (batchSize : Nat)
    (files : List FileRec) : List FileRec :=
  let candidates := findColdMigrationCandidates now daysInactive batchSize files
  files.map fun f =>
    if candidates.any (fun c => decide (c.id = f.id)) then migrateFileSuccess Tier.cold f
    else f

end MigrationM

namespace SanitizeM

/-- A control character in the class [\x00-\x1f\x7f] removed by the source. -/
def isCtrlChar (c : Char) : Bool := c.toNat ≤ 0x1f || c.toNat = 0x7f

/-- A character in the class [<>:"/\\|?*] replaced by an underscore. -/
def isForbidden (c : Char) : Bool :=
  c = '<' || c = '>' || c = ':' || c = '"' || c = '/' || c = '\\' ||
  c = '|' || c = '?' || c = '*'

def replForbidden (c : Char) : Char := if isForbidden c then '_' else c

def lowerList (s : List Char) : List Char := s.map Char.toLower

/-- Embeds the DANGEROUS_PATTERNS scan of src/src/middleware/security.js
lines 14-23: two dots, encoded dot-dot sequences (case-insensitive),
backslash, encoded backslashes, a null byte, or an encoded null byte. -/
def hasDangerousPattern (s : List Char) : Bool :=
  JsModel.containsSeq ['.', '.'] s ||
  JsModel.containsSeq "%2e%2e".toList (lowerList s) ||
  JsModel.containsSeq "%252e%252e".toList (lowerList s) ||
  s.contains '\\' ||
  JsModel.containsSeq "%5c".toList (lowerList s) ||
  JsModel.containsSeq "%255c".toList (lowerList s) ||
  s.contains (Char.ofNat 0) ||
  JsModel.containsSeq "%00".toList s

/-- Node path.basename (posix): ignore trailing slashes, then keep the part
after the last remaining slash; a path of only slashes yields a single
slash, the empty path yields the empty string. -/
def basenameList (s : List Char) : List Char :=
  let t := (s.reverse.dropWhile (fun c => c = '/')).reverse
  if t = [] then (if s = [] then [] else ['/'])
  else (t.reverse.takeWhile (fun c => c ≠ '/')).reverse

/-- The transformation part of sanitizeFilename: basename, remove control
characters, replace forbidden characters by underscores, trim. -/
def sanitizeCore (s : List Char) : List Char :=
  JsModel.trimList
    (((basenameList s).filter (fun c => !isCtrlChar c)).map replForbidden)

/-- Embeds sanitizeFilename (src/src/middleware/security.js lines 37-68):
reject an empty name, a name over the length cap, or one matching a
dangerous pattern; otherwise take the basename, strip control characters,
replace forbidden characters, trim; reject when the result is empty, a dot,
or a dot-dot; None models a thrown ValidationError. -/
def sanitizeFilename (maxLen : Nat) (s : List Char) : Option (List Char) :=
  if s = [] then none
  else if maxLen < s.length then none
  else if hasDangerousPattern s then none
  else
    let r := sanitizeCore s
    if r = [] ∨ r = ['.'] ∨ r = ['.', '.'] then none
    else some r

end SanitizeM

namespace DownloadM

/-- Embeds parseRange (src/src/utils/stream.js lines 27-50) including the JS
quirks: the header must start with bytes=, the bounds come from parseInt
(None models NaN), an absent or empty second part defaults the end to
fileSize - 1, a NaN start turns the range into a suffix range, and the
final validation rejects start < 0, end outside the file, or start > end. -/
def parseRange (rangeHeader : List Char) (fileSize : Int) : Option (Int × Int) :=
  if !("bytes=".toList.isPrefixOf rangeHeader) then none
  else
    let range := JsModel.replaceFirst "bytes=".toList [] rangeHeader
    let parts := JsModel.splitOnChar '-' range
    let start? := JsModel.jsParseInt10 (parts.headD [])
    let end? : Option Int :=
      match parts[1]? with
      | some p => if p = [] then some (fileSize - 1) else JsModel.jsParseInt10 p
      | none => some (fileSize - 1)
    let checked : Option (Int × Int) :=
      match start?, end? with
      | some s, some e => some (s, e)
      | none, some e => some (fileSize - e, fileSize - 1)
      | _, none => none
    match checked with
    | none => none
    | some (s, e) =>
      if s < 0 ∨ fileSize ≤ e ∨ e < s then none else some (s, e)

/-- The denormalized file metadata object cached under file:fileId. -/
structure Metadata where
  id : String
  storageKey : String
  originalName : String
  mimeType : String
  size : Int
  storageTier : String
  isPublic : Bool
  hasPassword : Bool
  userId : String
  downloads : Nat
  expiresAt : Option Int
deriving DecidableEq, Repr

/-- The durable File record fields the download path reads. -/
structure DlFile where
  id : String
  storageKey : String
  originalName : String
  mimeType : String
  size : Int
  storageTier : String
  isPublic : Bool
  password : Option String
  userId : String
  downloads : Nat
  expiresAt : Option Int
  isDeleted : Bool
deriving DecidableEq, Repr

/-- The state the download path touches: the metadata cache entry for the
file, the durable record, and the set of admin user ids. -/
structure DlState where
  cache : Option Metadata
  dbFile : Option DlFile
  adminUsers : List String
deriving DecidableEq, Repr

inductive DlErr
  | notFound (what : String)
  | authorization (msg : String)
deriving DecidableEq, Repr

/-- The isExpired virtual of the File model: a non-null expiresAt strictly in
the past. -/
def fileIsExpired (now : Int) (f : DlFile) : Bool :=
  match f.expiresAt with
  | some t => decide (t < now)
  | none => false

def metadataOf (f : DlFile) : Metadata :=
  { id := f.id, storageKey := f.storageKey, originalName := f.originalName,
    mimeType := f.mimeType, size := f.size, storageTier := f.storageTier,
    isPublic := f.isPublic, hasPassword := f.password.isSome,
    userId := f.userId, downloads := f.downloads, expiresAt := f.expiresAt }

/-- Embeds DownloadService.getFileMetadata (src/src/services/
DownloadService.js lines 23-63): a cache hit returns the cached metadata at
once; only on a miss is the durable record loaded and checked for absence,
soft deletion, and expiry before being cached. -/
def getFileMetadata (now : Int) (st : DlState) : Except DlErr (Metadata × DlState) :=
  match st.cache with
  | some m => .ok (m, st)
  | none =>
    match st.dbFile with
    | none => .error (.notFound "File")
    | some f =>
      if f.isDeleted then .error (.notFound "File")
      else if fileIsExpired now f then .error (.notFound "File has expired")
      else .ok (metadataOf f, { st with cache := some (metadataOf f) })

/-- Embeds DownloadService._checkAccess (lines 149-185): public files
without password pass; a stored password must be matched exactly; private
files require the owner or an admin. -/
def checkAccess (st : DlState) (m : Metadata) (userId password : Option String) :
    Except DlErr Unit :=
  if m.isPublic && !m.hasPassword then .ok ()
  else
    let pwCheck : Except DlErr Unit :=
      if m.hasPassword then
        match password with
        | none => .error (.authorization "Password required")
        | some pw =>
          match st.dbFile with
          | none => .error (.authorization "Invalid password")
          | some f => if f.password = some pw then .ok () else .error (.authorization "Invalid password")
      else .ok ()
    match pwCheck with
    | .error e => .error e
    | .ok _ =>
      if !m.isPublic then
        match userId with
        | none => .error (.authorization "Authentication required")
        | some uid =>
          if m.userId = uid then .ok ()
          else if st.adminUsers.contains uid then .ok ()
          else .error (.authorization "Access denied")
      else .ok ()

/-- The response of prepareDownload: the HTTP-style status code and the byte
range handed to the storage stream (None streams the whole blob). -/
structure DlResp where
  statusCode : Nat
  range : Option (Int × Int)
  meta : Metadata
deriving DecidableEq, Repr

/-- Embeds DownloadService.prepareDownload (lines 68-116).  A present Range
header is handed to parseRange; when parseRange rejects it the range stays
null and the service streams the whole file with status 200 — no error is
raised for a bad range.  The asynchronous counter and bandwidth side
effects are fire-and-forget and not part of the response. -/
def prepareDownload (now : Int) (st : DlState) (userId password : Option String)
    (rangeHeader : Option (List Char)) : Except DlErr (DlResp × DlState) :=
  match getFileMetadata now st with
  | .error e => .error e
  | .ok (m, st1) =>
    match checkAccess st1 m userId password with
    | .error e => .error e
    | .ok _ =>
      let range : Option (Int × Int) :=
        match rangeHeader with
        | some h => parseRange h m.size
        | none => none
      .ok ({ statusCode := if range.isSome then 206 else 200, range := range, meta := m }, st1)

end DownloadM

namespace UploadM

inductive SessStatus
  | pending
  | uploading
  | assembling
  | completed
  | failed
  | expired
deriving DecidableEq, Repr

/-- One durable completedChunks entry of UploadSession. -/
structure ChunkEntry where
  index : Int
  size : Nat
  hash : String
  completedAt : Int
deriving DecidableEq, Repr

/-- The error subdocument markFailed writes into the durable session:
message, code, and the optional chunk index. -/
structure SessErr where
  message : String
  code : String
  chunkIndex : Option Int
deriving DecidableEq, Repr

/-- The durable UploadSession record fields the engine reads and writes. -/
structure DbSession where
  sessionId : String
  userId : String
  filename : String
  totalSize : Nat
  expectedHash : Option String
  chunkSize : Nat
  totalChunks : Nat
  completedChunks : List ChunkEntry
  status : SessStatus
  error : Option SessErr
  fileId : Option String
  lastActivityAt : Int
  expiresAt : Int
deriving DecidableEq, Repr

/-- The denormalized session object cached in the volatile store under
upload_session:sessionId, also the shape _getSession returns. -/
structure SessView where
  sessionId : String
  userId : String
  filename : String
  totalSize : Nat
  expectedHash : Option String
  chunkSize : Nat
  totalChunks : Nat
  status : SessStatus
  expiresAt : Int
deriving DecidableEq, Repr

/-- The File record created on completion, identified by its storage key. -/
structure FileRec where
  userId : String
  storageKey : String
  originalName : String
  size : Nat
  hash : String
  expiresAt : Option Int
deriving DecidableEq, Repr

/-- The state one upload session's engine operations touch: the volatile
cache entry, the durable record, the volatile set of completed chunk
indices, the staged chunk files, the assembled blobs in storage, the File
records, and the owner's quota usage counters. -/
structure EngineState where
  cache : Option SessView
  db : Option DbSession
  chunkSet : List Int
  chunkWrites : List (Int × List Nat)
  blobs : List String
  files : List FileRec
  quotaStorage : Nat
  quotaFiles : Nat
deriving DecidableEq, Repr

/-- Embeds the error classes of utils/errors.js (src/unnamed/part_003 lines
120-276) that the upload engine throws, one constructor per class with its
constructor arguments: SessionExpiredError(sessionId), ValidationError
(message), ChunkValidationError(chunkIndex, reason), and UploadError
(message, statusCode, code) — at its single-argument call site the defaults
are statusCode 400 and code UPLOAD_ERROR. -/
inductive UpErr
  | sessionExpired (sessionId : String)
  | validation (message : String)
  | chunkValidation (chunkIndex : Int) (reason : String)
  | upload (message : String) (statusCode : Nat) (code : String)
deriving DecidableEq, Repr

/-- The code field each class passes to the AppError base constructor. -/
def errCode : UpErr → String
  | .sessionExpired _ => "SESSION_EXPIRED"
  | .validation _ => "VALIDATION_ERROR"
  | .chunkValidation _ _ => "CHUNK_VALIDATION_ERROR"
  | .upload _ _ c => c

/-- The message each class passes to the AppError base constructor —
SessionExpiredError and ChunkValidationError build theirs from their
arguments. -/
def errMessage : UpErr → String
  | .sessionExpired _ => "Upload session expired or not found"
  | .validation m => m
  | .chunkValidation i r => "Chunk " ++ toString i ++ " validation failed: " ++ r
  | .upload m _ _ => m

/-- The HTTP status code each class passes to the AppError base
constructor. -/
def errStatusCode : UpErr → Nat
  | .sessionExpired _ => 410
  | .validation _ => 400
  | .chunkValidation _ _ => 400
  | .upload _ s _ => s

def dbToView (d : DbSession) : SessView :=
  { sessionId := d.sessionId, userId := d.userId, filename := d.filename,
    totalSize := d.totalSize, expectedHash := d.expectedHash,
    chunkSize := d.chunkSize, totalChunks := d.totalChunks,
    status := d.status, expiresAt := d.expiresAt }

/-- Embeds UploadService._getSession (src/src/services/UploadService.js
lines 405-441): a cache hit is returned as-is; on a miss the durable store
is queried with the filter sessionId, expiresAt after now, and status in
pending or uploading; a match is re-cached, anything else resolves to no
session. -/
def getSession (now : Int) (st : EngineState) : Option SessView × EngineState :=
  match st.cache with
  | some c => (some c, st)
  | none =>
    match st.db with
    | some d =>
      if now < d.expiresAt ∧ (d.status = SessStatus.pending ∨ d.status = SessStatus.uploading) then
        (some (dbToView d), { st with cache := some (dbToView d) })
      else (none, st)
    | none => (none, st)

/-- Embeds UploadSession.markChunkComplete (src/src/models/UploadSession.js
lines 151-169): when an entry with the same index already exists nothing is
written; otherwise the entry is appended, lastActivityAt is refreshed, and
the status advances to uploading. -/
def markChunkComplete (now : Int) (d : DbSession) (index : Int) (size : Nat)
    (hash : String) : DbSession :=
  if d.completedChunks.any (fun c => decide (c.index = index)) then d
  else
    { d with
      completedChunks := d.completedChunks ++ [⟨index, size, hash, now⟩]
      lastActivityAt := now
      status := SessStatus.uploading }

/-- Redis sadd on the session's chunk set. -/
def saddChunk (s : List Int) (i : Int) : List Int :=
  if i ∈ s then s else s ++ [i]

/-- Redis smembers of the chunk set, parsed and sorted ascending as
_getCompletedChunks does. -/
def getCompletedChunks (st : EngineState) : List Int :=
  JsModel.sortBy (fun a b => decide (a ≤ b)) st.chunkSet

/-- Embeds UploadService._getExpectedChunkSize (lines 513-520): every chunk
is full sized except the last, which gets the remainder when nonzero. -/
def expectedChunkSize (chunkIndex : Int) (totalChunks chunkSize totalSize : Nat) : Nat :=
  if chunkIndex = (totalChunks : Int) - 1 then
    let r := totalSize % chunkSize
    if r = 0 then chunkSize else r
  else chunkSize

/-- The progress object of _getProgress, without the floating-point
percentage field (a presentational rounding of the same counts). -/
structure Progress where
  uploadedChunks : Nat
  totalChunks : Nat
  uploadedBytes : Nat
  totalBytes : Nat
deriving DecidableEq, Repr

def getProgress (st : EngineState) (v : SessView) : Progress :=
  let completed := getCompletedChunks st
  { uploadedChunks := completed.length,
    totalChunks := v.totalChunks,
    uploadedBytes := completed.foldl
      (fun acc i => acc + expectedChunkSize i v.totalChunks v.chunkSize v.totalSize) 0,
    totalBytes := v.totalSize }

inductive ChunkStatus
  | uploaded
  | alreadyUploaded
deriving DecidableEq, Repr

structure ChunkResult where
  chunkIndex : Int
  status : ChunkStatus
  progress : Progress
deriving DecidableEq, Repr

/-- Embeds UploadService.uploadChunk (lines 96-176): resolve the session;
validate the index; if the volatile chunk set already holds the index,
answer already_uploaded without touching anything; otherwise validate data,
optional MD5, and size; then write the chunk, add the index to the volatile
set, and append the durable entry.  The state is the content reachable
under the given sessionId's keys; the MD5 function is a parameter of the
embedding. -/
def uploadChunk (md5 : List Nat → String) (now : Int) (sessionId : String)
    (st : EngineState) (chunkIndex : Int) (chunkData : List Nat)
    (chunkHash : String) : Except UpErr ChunkResult × EngineState :=
  match getSession now st with
  | (none, st1) => (.error (.sessionExpired sessionId), st1)
  | (some s, st1) =>
    if chunkIndex < 0 ∨ (s.totalChunks : Int) ≤ chunkIndex then
      (.error (.chunkValidation chunkIndex "Invalid chunk index"), st1)
    else if chunkIndex ∈ st1.chunkSet then
      (.ok { chunkIndex := chunkIndex, status := .alreadyUploaded,
             progress := getProgress st1 s }, st1)
    else if chunkData = [] then
      (.error (.chunkValidation chunkIndex "Empty chunk data"), st1)
    else if chunkHash ≠ "" ∧ ¬ JsModel.jsVerifyHash (md5 chunkData) chunkHash then
      (.error (.chunkValidation chunkIndex "Chunk hash mismatch"), st1)
    else if chunkData.length ≠ expectedChunkSize chunkIndex s.totalChunks s.chunkSize s.totalSize then
      (.error (.chunkValidation chunkIndex
        ("Invalid chunk size. Expected: " ++
          toString (expectedChunkSize chunkIndex s.totalChunks s.chunkSize s.totalSize) ++
          ", Got: " ++ toString chunkData.length)), st1)
    else
      let h := md5 chunkData
      let st2 := { st1 with chunkWrites := st1.chunkWrites ++ [(chunkIndex, chunkData)] }
      let st3 := { st2 with chunkSet := saddChunk st2.chunkSet chunkIndex }
      let st4 :=
        match st3.db with
        | some d => { st3 with db := some (markChunkComplete now d chunkIndex chunkData.length h) }
        | none => st3
      (.ok { chunkIndex := chunkIndex, status := .uploaded,
             progress := getProgress st4 s }, st4)

structure StatusResp where
  filename : String
  totalSize : Nat
  totalChunks : Nat
  completedChunks : Nat
  remainingChunks : List Int
  status : SessStatus
  expiresAt : Int
deriving DecidableEq, Repr

/-- Embeds UploadService.getUploadStatus (lines 181-209). -/
def getUploadStatus (now : Int) (sessionId : String) (st : EngineState) :
    Except UpErr StatusResp × EngineState :=
  match getSession now st with
  | (none, st1) => (.error (.sessionExpired sessionId), st1)
  | (some s, st1) =>
    let completed := getCompletedChunks st1
    let remaining := (List.range s.totalChunks).filterMap
      (fun i => if (i : Int) ∈ completed then none else some (i : Int))
    (.ok { filename := s.filename, totalSize := s.totalSize,
           totalChunks := s.totalChunks, completedChunks := completed.length,
           remainingChunks := remaining, status := s.status,
           expiresAt := s.expiresAt }, st1)

structure CompleteResp where
  fileId : String
  filename : String
  size : Nat
  hash : String
  expiresAt : Option Int
deriving DecidableEq, Repr

/-- Embeds UploadSession.markFailed (src/src/models/UploadSession.js lines
194-202): status becomes failed and the error subdocument records the
thrown error's message, its code with an UNKNOWN fallback, and the chunk
index argument (null when omitted, as at the completeUpload call site). -/
def markFailed (d : DbSession) (err : UpErr) (chunkIndex : Option Int) : DbSession :=
  { d with
    status := SessStatus.failed
    error := some ⟨errMessage err,
                   (if errCode err = "" then "UNKNOWN" else errCode err),
                   chunkIndex⟩ }

/-- Embeds UploadService.completeUpload (lines 214-317).  The generated
storage key, the assembly result (size and SHA-256 of the assembled blob),
and whether the owner is premium or admin (which decides the expiry date)
are parameters of the embedding.  On a hash mismatch the assembled blob is
deleted, the durable session is marked failed with the error's code, the
staged chunks are removed, and the error propagates; no File record is
created and the quota counters stay untouched. -/
def completeUpload (now : Int) (sessionId : String) (st : EngineState)
    (userId : String) (storageKey : String) (assembledSize : Nat)
    (assembledHash : String) (ownerPremiumOrAdmin : Bool) (expiryDaysFree : Nat) :
    Except UpErr CompleteResp × EngineState :=
  match getSession now st with
  | (none, st1) => (.error (.sessionExpired sessionId), st1)
  | (some s, st1) =>
    if s.userId ≠ userId then
      (.error (.validation "Unauthorized access to upload session"), st1)
    else
      let completed := getCompletedChunks st1
      if completed.length ≠ s.totalChunks then
        (.error (.upload
          ("Upload incomplete. " ++ toString ((s.totalChunks : Int) - completed.length) ++
            " chunks remaining") 400 "UPLOAD_ERROR"), st1)
      else
        let st2 :=
          match st1.db with
          | some d => { st1 with db := some { d with status := SessStatus.assembling, lastActivityAt := now } }
          | none => st1
        let st3 := { st2 with blobs := st2.blobs ++ [storageKey] }
        let hashBad : Bool :=
          match s.expectedHash with
          | some e => decide (e ≠ "") && !(JsModel.jsVerifyHash assembledHash e)
          | none => false
        if hashBad then
          let st4 := { st3 with blobs := st3.blobs.erase storageKey }
          let err := UpErr.upload "File hash verification failed" 400 "HASH_MISMATCH"
          let st5 :=
            match st4.db with
            | some d => { st4 with db := some (markFailed d err none) }
            | none => st4
          let st6 := { st5 with chunkWrites := [] }
          (.error err, st6)
        else
          let file : FileRec :=
            { userId := userId, storageKey := storageKey,
              originalName := s.filename, size := assembledSize,
              hash := assembledHash,
              expiresAt := if ownerPremiumOrAdmin then none
                else some (now + (expiryDaysFree : Int) * 24 * 60 * 60 * 1000) }
          let st4 := { st3 with
                       files := st3.files ++ [file]
                       quotaStorage := st3.quotaStorage + assembledSize
                       quotaFiles := st3.quotaFiles + 1 }
          let st5 :=
            match st4.db with
            | some d =>
              let d2 := { d with
                          status := SessStatus.completed
                          fileId := some storageKey }
              { st4 with db := some d2 }
            | none => st4
          let st6 := { st5 with cache := none, chunkSet := [] }
          (.ok { fileId := storageKey, filename := s.filename,
                 size := assembledSize, hash := assembledHash,
                 expiresAt := file.expiresAt }, st6)

/-- Embeds UploadService.resumeUpload (lines 354-372): resolve the session,
check ownership, then return the status (the synthesized upload URLs are a
pure function of sessionId and totalChunks). -/
def resumeUpload (now : Int) (sessionId : String) (st : EngineState)
    (userId : String) : Except UpErr StatusResp × EngineState :=
  match getSession now st with
  | (none, st1) => (.error (.sessionExpired sessionId), st1)
  | (some s, st1) =>
    if s.userId ≠ userId then
      (.error (.validation "Unauthorized access to upload session"), st1)
    else getUploadStatus now sessionId st1

/-- Number of durable completedChunks entries carrying a given index. -/
def indexCount (st : EngineState) (j : Int) : Nat :=
  match st.db with
  | some d => d.completedChunks.countP (fun c => decide (c.index = j))
  | none => 0

end UploadM

namespace Fixtures

/-- A public, password-free, never-expiring file's cached metadata. -/
def pubMeta : DownloadM.Metadata :=
  ⟨"f1", "k1", "doc.txt", "text/plain", 1000, "hot", true, false, "u1", 0, none⟩

/-- The same file's metadata with an expiry instant in the past (at time 10). -/
def pubMetaExpired : DownloadM.Metadata :=
  ⟨"f1", "k1", "doc.txt", "text/plain", 1000, "hot", true, false, "u1", 0, some 5⟩

/-- Download state whose metadata cache holds pubMeta. -/
def cachedState : DownloadM.DlState := ⟨some pubMeta, none, []⟩

/-- Download state whose metadata cache holds the expired metadata. -/
def cachedExpiredState : DownloadM.DlState := ⟨some pubMetaExpired, none, []⟩

/-- Durable record of the expired file. -/
def dbExpiredFile : DownloadM.DlFile :=
  ⟨"f1", "k1", "doc.txt", "text/plain", 1000, "hot", true, none, "u1", 0, some 5, false⟩

/-- Download state with an empty metadata cache and the expired file durable. -/
def missState : DownloadM.DlState := ⟨none, some dbExpiredFile, []⟩

/-- A live single-chunk upload session view (5 bytes, expected hash aa). -/
def sessView1 : UploadM.SessView :=
  ⟨"sid", "u1", "doc.txt", 5, some "aa", 5, 1, UploadM.SessStatus.uploading, 999⟩

/-- The matching durable session with chunk 0 recorded. -/
def dbSess1 : UploadM.DbSession :=
  ⟨"sid", "u1", "doc.txt", 5, some "aa", 5, 1, [⟨0, 5, "h0", 1⟩],
   UploadM.SessStatus.uploading, none, none, 1, 999⟩

/-- Engine state for that session with chunk 0 complete in the volatile set. -/
def engState1 : UploadM.EngineState :=
  ⟨some sessView1, some dbSess1, [0], [(0, [1, 2, 3, 4, 5])], [], [], 0, 0⟩

/-- A durable session in the terminal status completed. -/
def dbSessDone : UploadM.DbSession :=
  ⟨"sid", "u1", "doc.txt", 5, none, 5, 1, [⟨0, 5, "h0", 1⟩],
   UploadM.SessStatus.completed, none, some "k", 1, 999999⟩

/-- Engine state after the cache entry for that session is gone. -/
def engStateDone : UploadM.EngineState :=
  ⟨none, some dbSessDone, [], [], [], [], 0, 0⟩

end Fixtures

namespace JsModel

theorem mem_of_mem_dropWhile {p : Char → Bool} {l : List Char} {a : Char}
    (h : a ∈ l.dropWhile p) : a ∈ l := by
  induction l with
  | nil => simp at h
  | cons c rest ih =>
    by_cases hc : p c
    · simp only [List.dropWhile, hc] at h
      exact List.mem_cons_of_mem _ (ih h)
    · simpa [List.dropWhile, hc] using h

theorem head?_dropWhile_false {p : Char → Bool} {l : List Char} {c : Char}
    (h : (l.dropWhile p).head? = some c) : p c = false := by
  induction l with
  | nil => simp at h
  | cons b rest ih =>
    by_cases hb : p b
    · simp only [List.dropWhile, hb] at h
      exact ih h
    · simp only [List.dropWhile, hb] at h
      simp at h
      subst h
      simpa using hb

theorem dropWhile_eq_self_of_head {p : Char → Bool} {l : List Char}
    (h : ∀ c, l.head? = some c → p c = false) : l.dropWhile p = l := by
  cases l with
  | nil => rfl
  | cons b rest =>
    have hb := h b rfl
    simp [List.dropWhile, hb]

theorem getLast?_cons_of_ne {α : Type} {a : α} {l : List α} (h : l ≠ []) :
    (a :: l).getLast? = l.getLast? := by
  cases l with
  | nil => exact absurd rfl h
  | cons x xs => simp

theorem getLast?_dropWhile {p : Char → Bool} (l : List Char) :
    l.dropWhile p = [] ∨ (l.dropWhile p).getLast? = l.getLast? := by
  induction l with
  | nil => left; rfl
  | cons b rest ih =>
    by_cases hb : p b
    · rcases ih with h | h
      · left; simp [List.dropWhile, hb, h]
      · rcases hr : rest.dropWhile p with _ | ⟨x, xs⟩
        · left; simp [List.dropWhile, hb, hr]
        · right
          have hrest : rest ≠ [] := by
            intro he; rw [he] at hr; simp at hr
          simp only [List.dropWhile, hb]
          rw [h, getLast?_cons_of_ne hrest]
    · right; simp [List.dropWhile, hb]

theorem mem_trimList {s : List Char} {a : Char} (h : a ∈ trimList s) : a ∈ s := by
  unfold trimList at h
  rw [List.mem_reverse] at h
  have h2 := mem_of_mem_dropWhile h
  rw [List.mem_reverse] at h2
  exact mem_of_mem_dropWhile h2

theorem trimList_head {s : List Char} {c : Char}
    (h : (trimList s).head? = some c) : isJsSpace c = false := by
  unfold trimList at h
  rw [List.head?_reverse] at h
  rcases @getLast?_dropWhile isJsSpace (s.dropWhile isJsSpace).reverse with he | he
  · rw [he] at h; simp at h
  · rw [he] at h
    rw [← List.head?_reverse, List.reverse_reverse] at h
    exact head?_dropWhile_false h

theorem trimList_getLast {s : List Char} {c : Char}
    (h : (trimList s).getLast? = some c) : isJsSpace c = false := by
  unfold trimList at h
  rw [← List.head?_reverse, List.reverse_reverse] at h
  exact head?_dropWhile_false h

theorem trimList_eq_self {l : List Char}
    (h1 : ∀ c, l.head? = some c → isJsSpace c = false)
    (h2 : ∀ c, l.getLast? = some c → isJsSpace c = false) :
    trimList l = l := by
  unfold trimList
  rw [dropWhile_eq_self_of_head h1]
  have hrev : l.reverse.dropWhile isJsSpace = l.reverse := by
    apply dropWhile_eq_self_of_head
    intro c hc
    rw [List.head?_reverse] at hc
    exact h2 c hc
  rw [hrev, List.reverse_reverse]

end JsModel

namespace SanitizeM

theorem takeWhile_eq_self_of_all {p : Char → Bool} {l : List Char}
    (h : ∀ c ∈ l, p c = true) : l.takeWhile p = l := by
  induction l with
  | nil => rfl
  | cons b rest ih =>
    have hb := h b (List.mem_cons_self b rest)
    simp only [List.takeWhile, hb]
    rw [ih (fun c hc => h c (List.mem_cons_of_mem _ hc))]

theorem map_eq_self_of_all {f : Char → Char} {l : List Char}
    (h : ∀ c ∈ l, f c = c) : l.map f = l := by
  induction l with
  | nil => rfl
  | cons b rest ih =>
    simp only [List.map_cons, h b (List.mem_cons_self b rest)]
    rw [ih (fun c hc => h c (List.mem_cons_of_mem _ hc))]

theorem basenameList_eq_self {l : List Char} (hne : l ≠ [])
    (h : ∀ c ∈ l, c ≠ '/') : basenameList l = l := by
  unfold basenameList
  have hdrop : l.reverse.dropWhile (fun c => c = '/') = l.reverse := by
    apply JsModel.dropWhile_eq_self_of_head
    intro c hc
    rw [List.head?_reverse] at hc
    have hcm : c ∈ l := by
      rcases List.mem_getLast?_eq_getLast hc with ⟨hl, hcl⟩
      rw [hcl]; exact List.getLast_mem hl
    simpa using h c hcm
  rw [hdrop, List.reverse_reverse]
  rw [if_neg hne]
  have htw : l.reverse.takeWhile (fun c => decide (c ≠ '/')) = l.reverse := by
    apply takeWhile_eq_self_of_all
    intro c hc
    rw [List.mem_reverse] at hc
    simpa using h c hc
  rw [htw, List.reverse_reverse]

theorem repl_not_forbidden (c : Char) : isForbidden (replForbidden c) = false := by
  unfold replForbidden
  by_cases h : isForbidden c = true
  · rw [if_pos h]; decide
  · rw [if_neg h]; simpa using h

theorem repl_not_ctrl {c : Char} (h : isCtrlChar c = false) :
    isCtrlChar (replForbidden c) = false := by
  unfold replForbidden
  by_cases hf : isForbidden c = true
  · rw [if_pos hf]; decide
  · rw [if_neg hf]; exact h

theorem sanitizeCore_chars {s : List Char} {c : Char} (h : c ∈ sanitizeCore s) :
    isCtrlChar c = false ∧ isForbidden c = false := by
  unfold sanitizeCore at h
  have h1 := JsModel.mem_trimList h
  rw [List.mem_map] at h1
  rcases h1 with ⟨a, ha, hac⟩
  rw [List.mem_filter] at ha
  constructor
  · rw [← hac]
    apply repl_not_ctrl
    simpa using ha.2
  · rw [← hac]; exact repl_not_forbidden a

theorem sanitizeCore_eq_self {l : List Char} (hne : l ≠ [])
    (hchars : ∀ c ∈ l, isCtrlChar c = false ∧ isForbidden c = false)
    (hh : ∀ c, l.head? = some c → JsModel.isJsSpace c = false)
    (hl : ∀ c, l.getLast? = some c → JsModel.isJsSpace c = false) :
    sanitizeCore l = l := by
  unfold sanitizeCore
  rw [basenameList_eq_self hne]
  · rw [List.filter_eq_self.mpr]
    · rw [map_eq_self_of_all]
      · exact JsModel.trimList_eq_self hh hl
      · intro c hc
        unfold replForbidden
        rw [if_neg]
        simp [(hchars c hc).2]
    · intro c hc
      simp [(hchars c hc).1]
  · intro c hc hcs
    have hforb := (hchars c hc).2
    rw [hcs] at hforb
    simp [isForbidden] at hforb

theorem sanitizeFilename_eq_core {maxLen : Nat} {x y : List Char}
    (h : sanitizeFilename maxLen x = some y) :
    y = sanitizeCore x ∧ y ≠ [] ∧ y ≠ ['.'] ∧ y ≠ ['.', '.'] := by
  unfold sanitizeFilename at h
  split at h
  · exact absurd h (by simp)
  · split at h
    · exact absurd h (by simp)
    · split at h
      · exact absurd h (by simp)
      · dsimp only at h
        split at h
        · exact absurd h (by simp)
        · rename_i hbad
          push_neg at hbad
          cases h
          exact ⟨rfl, hbad.1, hbad.2.1, hbad.2.2⟩

end SanitizeM

namespace UploadM

theorem getSession_preserves (now : Int) (st : EngineState) :
    ((getSession now st).2).db = st.db ∧
    ((getSession now st).2).chunkSet = st.chunkSet ∧
    ((getSession now st).2).chunkWrites = st.chunkWrites ∧
    ((getSession now st).2).blobs = st.blobs ∧
    ((getSession now st).2).files = st.files ∧
    ((getSession now st).2).quotaStorage = st.quotaStorage ∧
    ((getSession now st).2).quotaFiles = st.quotaFiles := by
  unfold getSession
  rcases hc : st.cache with _ | c
  · rcases hd : st.db with _ | d
    · simp [hd]
    · dsimp only
      split <;> simp [hd]
  · simp

theorem getSession_cache_hit {now : Int} {st : EngineState} {c : SessView}
    (h : st.cache = some c) : getSession now st = (some c, st) := by
  unfold getSession
  rw [h]

theorem markChunkComplete_indexCount {now : Int} {d : DbSession} {i : Int}
    {sz : Nat} {hs : String}
    (h : ∀ j : Int, d.completedChunks.countP (fun c => decide (c.index = j)) ≤ 1) :
    ∀ j : Int, (markChunkComplete now d i sz hs).completedChunks.countP
      (fun c => decide (c.index = j)) ≤ 1 := by
  intro j
  unfold markChunkComplete
  split
  · exact h j
  · rename_i hany
    simp only [List.countP_append]
    by_cases hij : i = j
    · have hzero : d.completedChunks.countP (fun c => decide (c.index = j)) = 0 := by
        rw [List.countP_eq_zero]
        intro c hc
        simp only [List.any_eq_true, not_exists] at hany
        simp only [decide_eq_true_eq]
        intro hcj
        exact hany c ⟨hc, by simp [hcj, hij]⟩
      rw [hzero]
      simp only [List.countP_cons, List.countP_nil]
      split <;> omega
    · have hone : ([(⟨i, sz, hs, now⟩ : ChunkEntry)].countP (fun c => decide (c.index = j))) = 0 := by
        simp [List.countP_cons, hij]
      rw [hone]
      simpa using h j

theorem uploadChunk_db_shape (md5 : List Nat → String) (now : Int) (sid : String)
    (st : EngineState) (i : Int) (data : List Nat) (hsh : String) :
    ((uploadChunk md5 now sid st i data hsh).2).db = st.db ∨
    (∃ d, st.db = some d ∧
      ((uploadChunk md5 now sid st i data hsh).2).db =
        some (markChunkComplete now d i data.length (md5 data))) := by
  unfold uploadChunk
  rcases hgs : getSession now st with ⟨sv, st1⟩
  have hdb1 : st1.db = st.db := by
    have hp := (getSession_preserves now st).1
    rw [hgs] at hp
    exact hp
  rcases sv with _ | s
  · left; exact hdb1
  · dsimp only
    split
    · left; exact hdb1
    · split
      · left; exact hdb1
      · split
        · left; exact hdb1
        · split
          · left; exact hdb1
          · split
            · left; exact hdb1
            · rcases hdb : st1.db with _ | d
              · left
                simp [hdb, ← hdb1]
              · right
                refine ⟨d, by rw [← hdb1, hdb], ?_⟩
                simp [hdb]

end UploadM

/-- Claim C1 counterexample: for the malformed and unsatisfiable Range header
bytes=500-100 (start after end) on a 1000-byte public file, parseRange
returns null and prepareDownload streams the FULL file with status 200
instead of failing with an INVALID_RANGE error, refuting the claim that it
never responds by streaming content on a bad range. -/
theorem invalid_range_streams_full_counterexample :
    DownloadM.parseRange "bytes=500-100".toList 1000 = none ∧
    DownloadM.prepareDownload 0 Fixtures.cachedState none none
      (some "bytes=500-100".toList) =
      .ok (⟨200, none, Fixtures.pubMeta⟩, Fixtures.cachedState) :=
  ⟨by decide, by rfl⟩

/-- Claim C1 (amended): when the Range header is malformed or unsatisfiable,
parseRange yields null and prepareDownload silently ignores the header,
streaming the whole file with status 200 — no INVALID_RANGE error exists;
a header that parseRange accepts yields a 206 partial response over exactly
the parsed bounds. -/
theorem download_range_fallback
    (now : Int) (st : DownloadM.DlState) (m : DownloadM.Metadata)
    (userId password : Option String) (h : List Char)
    (hc : st.cache = some m) (hp : m.isPublic = true) (hpw : m.hasPassword = false) :
    (DownloadM.parseRange h m.size = none →
      DownloadM.prepareDownload now st userId password (some h) =
        .ok (⟨200, none, m⟩, st)) ∧
    (∀ a b : Int, DownloadM.parseRange h m.size = some (a, b) →
      DownloadM.prepareDownload now st userId password (some h) =
        .ok (⟨206, some (a, b), m⟩, st)) := by
  have hmeta : DownloadM.getFileMetadata now st = .ok (m, st) := by
    unfold DownloadM.getFileMetadata
    rw [hc]
  have hacc : DownloadM.checkAccess st m userId password = .ok () := by
    unfold DownloadM.checkAccess
    rw [if_pos (by simp [hp, hpw])]
  constructor
  · intro hr
    unfold DownloadM.prepareDownload
    rw [hmeta]
    dsimp only
    rw [hacc]
    dsimp only
    rw [hr]
    rfl
  · intro a b hr
    unfold DownloadM.prepareDownload
    rw [hmeta]
    dsimp only
    rw [hacc]
    dsimp only
    rw [hr]
    rfl

/-- Claim C1 witness: the amended theorem applied to the unsatisfiable header
bytes=2000- on the concrete 1000-byte cached public file. -/
theorem download_range_fallback_witness :
    DownloadM.parseRange "bytes=2000-".toList Fixtures.pubMeta.size = none ∧
    DownloadM.prepareDownload 0 Fixtures.cachedState none none
      (some "bytes=2000-".toList) =
      .ok (⟨200, none, Fixtures.pubMeta⟩, Fixtures.cachedState) :=
  ⟨by decide,
   (download_range_fallback 0 Fixtures.cachedState Fixtures.pubMeta none none
      "bytes=2000-".toList rfl rfl rfl).1 (by decide)⟩

/-- Claim C2: posting a chunk whose index is already in the session's
volatile completed set returns already_uploaded and leaves the whole engine
state (chunk writes, volatile set, durable record, blobs, files, quota)
unchanged, no matter how many times it is repeated; moreover every
uploadChunk call preserves the property that the durable completedChunks
list holds at most one entry per index. -/
theorem upload_duplicate_chunk_idempotent
    (md5 : List Nat → String) (now : Int) (sid : String) (st : UploadM.EngineState)
    (s : UploadM.SessView) (i : Int) (data : List Nat) (hsh : String)
    (hc : st.cache = some s) (h0 : 0 ≤ i) (hlt : i < (s.totalChunks : Int))
    (hm : i ∈ st.chunkSet) :
    (UploadM.uploadChunk md5 now sid st i data hsh).1 =
      .ok ⟨i, .alreadyUploaded, UploadM.getProgress st s⟩ ∧
    (UploadM.uploadChunk md5 now sid st i data hsh).2 = st ∧
    (∀ n : Nat, (fun s2 => (UploadM.uploadChunk md5 now sid s2 i data hsh).2)^[n] st = st) ∧
    (∀ (now2 : Int) (sid2 : String) (st2 : UploadM.EngineState) (i2 : Int)
        (d2 : List Nat) (h2 : String),
      (∀ j : Int, UploadM.indexCount st2 j ≤ 1) →
      ∀ j : Int, UploadM.indexCount ((UploadM.uploadChunk md5 now2 sid2 st2 i2 d2 h2).2) j ≤ 1) := by
  have hkey : UploadM.uploadChunk md5 now sid st i data hsh =
      (.ok ⟨i, .alreadyUploaded, UploadM.getProgress st s⟩, st) := by
    unfold UploadM.uploadChunk
    rw [UploadM.getSession_cache_hit hc]
    dsimp only
    have hguard : ¬(i < 0 ∨ (s.totalChunks : Int) ≤ i) := by omega
    rw [if_neg hguard, if_pos hm]
  refine ⟨by rw [hkey], by rw [hkey], ?_, ?_⟩
  · intro n
    induction n with
    | zero => rfl
    | succ k ih =>
      rw [Function.iterate_succ_apply', ih]
      rw [hkey]
  · intro now2 sid2 st2 i2 d2 h2 hinv j
    rcases UploadM.uploadChunk_db_shape md5 now2 sid2 st2 i2 d2 h2 with hsame | ⟨d0, hd0, hres⟩
    · have hj := hinv j
      unfold UploadM.indexCount at hj ⊢
      rw [hsame]
      exact hj
    · unfold UploadM.indexCount
      rw [hres]
      apply UploadM.markChunkComplete_indexCount
      intro j2
      have hj2 := hinv j2
      unfold UploadM.indexCount at hj2
      rw [hd0] at hj2
      exact hj2

/-- Claim C2 witness: the theorem applied to the concrete one-chunk session
whose chunk 0 is already complete. -/
theorem upload_duplicate_chunk_idempotent_witness :
    (0 : Int) ∈ Fixtures.engState1.chunkSet ∧
    (UploadM.uploadChunk (fun _ => "") 2 "sid" Fixtures.engState1 0 [9, 9, 9, 9, 9] "").2 =
      Fixtures.engState1 :=
  ⟨by decide,
   (upload_duplicate_chunk_idempotent (fun _ => "") 2 "sid" Fixtures.engState1
      Fixtures.sessView1 0 [9, 9, 9, 9, 9] "" rfl (by decide) (by decide)
      (by decide)).2.1⟩

/-- Claim C3: when completeUpload assembles a blob whose hash disagrees with
the session's expected hash, the call fails with the HASH_MISMATCH upload
error, the assembled blob is deleted from storage, the durable session is
marked failed with error code HASH_MISMATCH, no File record is created, and
the quota usage counters are unchanged. -/
theorem upload_hash_mismatch_cleanup
    (now : Int) (sid : String) (st : UploadM.EngineState) (s : UploadM.SessView)
    (d : UploadM.DbSession)
    (userId storageKey : String) (asz : Nat) (ah e : String) (prem : Bool) (days : Nat)
    (hc : st.cache = some s) (hdb : st.db = some d) (huid : s.userId = userId)
    (hexp : s.expectedHash = some e) (hne : e ≠ "")
    (hlen : (UploadM.getCompletedChunks st).length = s.totalChunks)
    (hmis : JsModel.jsVerifyHash ah e = false)
    (hblob : storageKey ∉ st.blobs) :
    (UploadM.completeUpload now sid st userId storageKey asz ah prem days).1 =
      .error (.upload "File hash verification failed" 400 "HASH_MISMATCH") ∧
    ((UploadM.completeUpload now sid st userId storageKey asz ah prem days).2).db =
      some { d with
             status := UploadM.SessStatus.failed
             lastActivityAt := now
             error := some ⟨"File hash verification failed", "HASH_MISMATCH", none⟩ } ∧
    storageKey ∉ ((UploadM.completeUpload now sid st userId storageKey asz ah prem days).2).blobs ∧
    ((UploadM.completeUpload now sid st userId storageKey asz ah prem days).2).files = st.files ∧
    ((UploadM.completeUpload now sid st userId storageKey asz ah prem days).2).quotaStorage =
      st.quotaStorage ∧
    ((UploadM.completeUpload now sid st userId storageKey asz ah prem days).2).quotaFiles =
      st.quotaFiles := by
  have herase : (st.blobs ++ [storageKey]).erase storageKey = st.blobs := by
    rw [List.erase_append_right _ hblob]
    simp
  have hkey : UploadM.completeUpload now sid st userId storageKey asz ah prem days =
      (.error (.upload "File hash verification failed" 400 "HASH_MISMATCH"),
       { st with
         db := some { d with
                      status := UploadM.SessStatus.failed
                      lastActivityAt := now
                      error := some ⟨"File hash verification failed", "HASH_MISMATCH", none⟩ }
         blobs := st.blobs
         chunkWrites := [] }) := by
    unfold UploadM.completeUpload
    rw [UploadM.getSession_cache_hit hc]
    dsimp only
    rw [if_neg (by simp [huid])]
    rw [if_neg (by simp [hlen])]
    rw [hdb]
    dsimp only
    rw [hexp]
    dsimp only
    rw [if_pos (by simp [hne, hmis])]
    dsimp only [UploadM.markFailed, UploadM.errMessage, UploadM.errCode]
    rw [if_neg (by decide)]
    rw [herase]
  refine ⟨by rw [hkey], by rw [hkey], ?_, by rw [hkey], by rw [hkey], by rw [hkey]⟩
  rw [hkey]
  exact hblob

/-- Claim C3 witness: the theorem applied to the concrete complete one-chunk
session with expected hash aa and assembled hash bb. -/
theorem upload_hash_mismatch_cleanup_witness :
    JsModel.jsVerifyHash "bb" "aa" = false ∧
    (UploadM.completeUpload 2 "sid" Fixtures.engState1 "u1" "key1" 5 "bb" false 5).1 =
      .error (.upload "File hash verification failed" 400 "HASH_MISMATCH") :=
  ⟨by decide,
   (upload_hash_mismatch_cleanup 2 "sid" Fixtures.engState1 Fixtures.sessView1
      Fixtures.dbSess1 "u1" "key1" 5 "bb" "aa" false 5 rfl rfl rfl rfl
      (by decide) (by decide) (by decide) (by decide)).1⟩

/-- Claim C4 evaluation at the failing input: the pre-save hook establishes
the invariant depth = slashCount(path) - 1 (folder b under root folder a
gets path /a/b and depth 1), but the updateDescendantPaths cascade run when
the parent is renamed from /a to /c recomputes the descendant's depth as
path.split('/').length - 1 = 2, which violates the invariant (the invariant
demands 1); the cascade is off by one against the hook. -/
theorem folder_cascade_depth_bug :
    FolderM.preSaveChild ['/', 'a'] 0 ['b'] = (['/', 'a', '/', 'b'], 1) ∧
    FolderM.depthInvariant ['/', 'a', '/', 'b'] 1 ∧
    FolderM.cascadeDescendant ['/', 'a'] ['/', 'c'] ['/', 'a', '/', 'b'] =
      (['/', 'c', '/', 'b'], 2) ∧
    ¬ FolderM.depthInvariant ['/', 'c', '/', 'b'] 2 := by decide

/-- Claim C5 evaluation at the failing input: a hot, long-unaccessed,
undeleted file owned by a premium user is excluded by
StorageTierService.shouldMigrateToCold, yet the migration worker's
hot-to-cold pass still migrates it to cold, because the candidate query of
findColdMigrationCandidates never consults the owner's role and the worker
never calls shouldMigrateToCold. -/
theorem migration_worker_ignores_owner_role_bug :
    MigrationM.shouldMigrateToCold 1209600000 7 (some MigrationM.Role.premium)
      ⟨1, 42, MigrationM.Tier.hot, 0, none, 0, false, MigrationM.MigStatus.normal⟩ = false ∧
    MigrationM.isColdCandidate 1209600000 7
      ⟨1, 42, MigrationM.Tier.hot, 0, none, 0, false, MigrationM.MigStatus.normal⟩ = true ∧
    MigrationM.processColdMigrations 1209600000 7 100
      [⟨1, 42, MigrationM.Tier.hot, 0, none, 0, false, MigrationM.MigStatus.normal⟩] =
      [⟨1, 42, MigrationM.Tier.cold, 0, none, 0, false, MigrationM.MigStatus.completed⟩] := by
  decide

/-- Claim C6 counterexample: a public file whose expiresAt (5) is strictly
before now (10), but whose metadata sits in the cache, is served with
status 200 by prepareDownload instead of failing with NOT_FOUND — the
cache-hit path of getFileMetadata performs no expiry check. -/
theorem cached_expired_file_served_counterexample :
    Fixtures.pubMetaExpired.expiresAt = some 5 ∧ (5 : Int) < 10 ∧
    DownloadM.prepareDownload 10 Fixtures.cachedExpiredState none none none =
      .ok (⟨200, none, Fixtures.pubMetaExpired⟩, Fixtures.cachedExpiredState) :=
  ⟨rfl, by decide, by rfl⟩

/-- Claim C6 (amended): prepareDownload fails with the NOT_FOUND error for an
expired file exactly on the cache-miss path: when the metadata cache has no
entry and the durable record's expiresAt lies in the past, both
getFileMetadata and prepareDownload reject with NOT_FOUND; a cache hit
returns the cached metadata without any expiry check, so a file cached
before its expiry instant is still served until the cache entry lapses. -/
theorem download_expired_notfound_on_cache_miss
    (now t : Int) (st : DownloadM.DlState) (f : DownloadM.DlFile)
    (userId password : Option String) (rangeHeader : Option (List Char))
    (hc : st.cache = none) (hf : st.dbFile = some f) (hd : f.isDeleted = false)
    (he : f.expiresAt = some t) (ht : t < now) :
    DownloadM.getFileMetadata now st = .error (.notFound "File has expired") ∧
    DownloadM.prepareDownload now st userId password rangeHeader =
      .error (.notFound "File has expired") := by
  have hmeta : DownloadM.getFileMetadata now st = .error (.notFound "File has expired") := by
    unfold DownloadM.getFileMetadata
    rw [hc, hf]
    dsimp only
    rw [if_neg (by simp [hd])]
    rw [if_pos]
    unfold DownloadM.fileIsExpired
    rw [he]
    simpa using ht
  refine ⟨hmeta, ?_⟩
  unfold DownloadM.prepareDownload
  rw [hmeta]

/-- Claim C6 witness: the amended theorem applied at the concrete expired
file with an empty cache. -/
theorem download_expired_notfound_witness :
    Fixtures.missState.cache = none ∧
    DownloadM.prepareDownload 10 Fixtures.missState none none none =
      .error (.notFound "File has expired") :=
  ⟨rfl,
   (download_expired_notfound_on_cache_miss 10 5 Fixtures.missState
      Fixtures.dbExpiredFile none none none rfl rfl rfl rfl (by decide)).2⟩

/-- Claim C7 counterexample: with limit 1 and one fresh entry in the window,
the next check is denied, yet the denied request's entry is still inserted
into the sorted set (the window grows from one to two entries), refuting
the claim that a denied request adds no entry. -/
theorem denied_request_adds_entry_counterexample :
    (RateM.checkRateLimit 100000 1 60 "m" [⟨99000, "a"⟩]).1.allowed = false ∧
    (RateM.checkRateLimit 100000 1 60 "m" [⟨99000, "a"⟩]).2 =
      [⟨99000, "a"⟩, ⟨100000, "m"⟩] := by decide

/-- Claim C7 (amended): on every rate-limit check the new entry is inserted
into the window unconditionally — the single pipeline prunes, reads the
cardinality, and adds the entry before the limit comparison — so the state
after a check is always the pruned window plus the new entry, and the
request is allowed exactly when the pruned cardinality (excluding the new
entry) is below the limit; a denied request therefore still adds an entry. -/
theorem rate_limit_entry_always_added
    (now limit windowSeconds : Int) (member : String) (entries : List RateM.Entry) :
    (RateM.checkRateLimit now limit windowSeconds member entries).2 =
      RateM.pruneWindow (now - windowSeconds * 1000) entries ++ [⟨now, member⟩] ∧
    ((RateM.checkRateLimit now limit windowSeconds member entries).1.allowed = true ↔
      ((RateM.pruneWindow (now - windowSeconds * 1000) entries).length : Int) < limit) := by
  unfold RateM.checkRateLimit
  dsimp only
  by_cases h : ((RateM.pruneWindow (now - windowSeconds * 1000) entries).length : Int) ≥ limit
  · rw [if_pos h]
    refine ⟨rfl, ?_⟩
    simp
    omega
  · rw [if_neg h]
    refine ⟨rfl, ?_⟩
    simp
    omega

/-- Claim C8 evaluation at the failing input: between lastReset 2024-01-15
and now 2024-02-15 both the wall-clock day and the month have changed, yet
addBandwidth resets neither counter — getDate() returns 15 for both dates,
so the outer day guard (and with it the nested month guard) never fires;
counters 100/200 simply grow to 107/207 and lastReset is not advanced. -/
theorem quota_month_change_without_reset_bug :
    QuotaM.sameCalendarDay ⟨2024, 1, 15⟩ ⟨2024, 0, 15⟩ = false ∧
    QuotaM.sameMonth ⟨2024, 1, 15⟩ ⟨2024, 0, 15⟩ = false ∧
    QuotaM.addBandwidth ⟨2024, 1, 15⟩ ⟨100, 200, some ⟨2024, 0, 15⟩⟩ 7 =
      ⟨107, 207, some ⟨2024, 0, 15⟩⟩ := by decide

/-- Claim C9 counterexample: sanitizeFilename accepts the name a.^A.b (with
a control character between the dots) and returns a..b, but a second
application rejects a..b as a dangerous pattern, so the output of sanitize
is not always accepted by sanitize and idempotence fails where the claim
asserts it. -/
theorem sanitize_output_rejected_counterexample :
    SanitizeM.sanitizeFilename 255 ['a', '.', Char.ofNat 1, '.', 'b'] =
      some ['a', '.', '.', 'b'] ∧
    SanitizeM.sanitizeFilename 255 ['a', '.', '.', 'b'] = none := by decide

/-- Claim C9 (amended): stripping control characters can create a dangerous
pattern such as a dot-dot, which a second application of sanitizeFilename
rejects; but whenever the second application does accept, it is the
identity — if sanitizeFilename x = some y and sanitizeFilename y = some z
then z = y. -/
theorem sanitize_idempotent_when_defined {maxLen : Nat} {x y z : List Char}
    (h1 : SanitizeM.sanitizeFilename maxLen x = some y)
    (h2 : SanitizeM.sanitizeFilename maxLen y = some z) : z = y := by
  obtain ⟨hy, hyne, -, -⟩ := SanitizeM.sanitizeFilename_eq_core h1
  obtain ⟨hz, -, -, -⟩ := SanitizeM.sanitizeFilename_eq_core h2
  have hcore : SanitizeM.sanitizeCore y = y := by
    apply SanitizeM.sanitizeCore_eq_self hyne
    · intro c hc
      rw [hy] at hc
      exact SanitizeM.sanitizeCore_chars hc
    · intro c hc
      rw [hy] at hc
      exact JsModel.trimList_head hc
    · intro c hc
      rw [hy] at hc
      exact JsModel.trimList_getLast hc
  rw [hz, hcore]

/-- Claim C9 witness: the amended theorem applied at the concrete name ab,
which sanitizes to itself under both applications. -/
theorem sanitize_idempotent_witness :
    SanitizeM.sanitizeFilename 255 ['a', 'b'] = some ['a', 'b'] ∧
    (['a', 'b'] : List Char) = ['a', 'b'] :=
  ⟨by decide,
   @sanitize_idempotent_when_defined 255 ['a', 'b'] ['a', 'b'] ['a', 'b']
     (by decide) (by decide)⟩

/-- Claim C10: when the volatile cache entry for a session is gone and the
durable record's status is assembling, completed, failed, or expired, the
durable query of _getSession (status in pending or uploading and expiresAt
in the future) matches nothing, so session resolution yields none and every
engine operation — uploadChunk, getUploadStatus, completeUpload, and
resumeUpload — fails with SESSION_EXPIRED; in particular a status query
after a successful completeUpload (which evicts the cache and marks the
durable record completed) reports SESSION_EXPIRED. -/
theorem upload_terminal_session_expired
    (now : Int) (sid : String) (st : UploadM.EngineState) (d : UploadM.DbSession)
    (md5 : List Nat → String) (i : Int) (data : List Nat) (hsh : String)
    (userId storageKey : String) (asz : Nat) (ah : String) (prem : Bool) (days : Nat)
    (hc : st.cache = none) (hdb : st.db = some d)
    (hterm : d.status = UploadM.SessStatus.assembling ∨
             d.status = UploadM.SessStatus.completed ∨
             d.status = UploadM.SessStatus.failed ∨
             d.status = UploadM.SessStatus.expired) :
    UploadM.getSession now st = (none, st) ∧
    (UploadM.uploadChunk md5 now sid st i data hsh).1 = .error (.sessionExpired sid) ∧
    (UploadM.getUploadStatus now sid st).1 = .error (.sessionExpired sid) ∧
    (UploadM.completeUpload now sid st userId storageKey asz ah prem days).1 =
      .error (.sessionExpired sid) ∧
    (UploadM.resumeUpload now sid st userId).1 = .error (.sessionExpired sid) := by
  have hs : UploadM.getSession now st = (none, st) := by
    unfold UploadM.getSession
    rw [hc, hdb]
    have hng : ¬(now < d.expiresAt ∧
        (d.status = UploadM.SessStatus.pending ∨ d.status = UploadM.SessStatus.uploading)) := by
      rcases hterm with h | h | h | h <;> simp [h]
    dsimp only
    rw [if_neg hng]
  refine ⟨hs, ?_, ?_, ?_, ?_⟩
  · unfold UploadM.uploadChunk
    rw [hs]
  · unfold UploadM.getUploadStatus
    rw [hs]
  · unfold UploadM.completeUpload
    rw [hs]
  · unfold UploadM.resumeUpload
    rw [hs]

/-- Claim C10 witness: the theorem applied to the concrete state whose cache
is empty and whose durable session is completed — even though its expiresAt
is still in the future, a status query reports SESSION_EXPIRED. -/
theorem upload_terminal_session_expired_witness :
    Fixtures.dbSessDone.status = UploadM.SessStatus.completed ∧
    (2 : Int) < Fixtures.dbSessDone.expiresAt ∧
    (UploadM.getUploadStatus 2 "sid" Fixtures.engStateDone).1 =
      .error (.sessionExpired "sid") :=
  ⟨rfl, by decide,
   (upload_terminal_session_expired 2 "sid" Fixtures.engStateDone Fixtures.dbSessDone
      (fun _ => "") 0 [] "" "u1" "k" 0 "" false 5 rfl rfl
      (Or.inr (Or.inl rfl))).2.2.1⟩
